import Mathlib

/-!
Verification of the obspy array-analysis core, its KML export helper and the
phase cross-correlation wrapper.

The sliding-window beamformer and the array transfer-function evaluator are
not part of the sources (only their reference tests are); they are modelled
from the specification, with the reference fixtures of the test suite pinning
the points the specification leaves open.  The KML export and the phase
cross-correlation wrapper are translated directly from the sources.
-/

namespace ObsPy

/-! ### Reference fixtures (translated from the array-analysis test suite)

Each beam result row is (relative power, absolute power, backazimuth in
degrees, slowness in s/km), exactly as recorded in the reference test. -/

structure BeamRow where
  relpow : ℚ
  abspow : ℚ
  baz : ℚ
  slowness : ℚ
  deriving DecidableEq, Repr

/-- The recorded reference output of the classic-method run with
prewhiten = 0 (test_sonicBf). -/
def sonicBfFixture : List BeamRow :=
  [⟨969515476 / 10 ^ 9, 195237117 / 10 ^ 13, 184349488 / 10 ^ 7, 126491106 / 10 ^ 8⟩,
   ⟨959920378 / 10 ^ 9, 168637467 / 10 ^ 13, 184349488 / 10 ^ 7, 126491106 / 10 ^ 8⟩,
   ⟨963367672 / 10 ^ 9, 136251275 / 10 ^ 13, 184349488 / 10 ^ 7, 126491106 / 10 ^ 8⟩,
   ⟨965265591 / 10 ^ 9, 135077292 / 10 ^ 13, 184349488 / 10 ^ 7, 126491106 / 10 ^ 8⟩,
   ⟨956276421 / 10 ^ 9, 115114010 / 10 ^ 13, 184349488 / 10 ^ 7, 126491106 / 10 ^ 8⟩,
   ⟨949731735 / 10 ^ 9, 966531018 / 10 ^ 14, 184349488 / 10 ^ 7, 126491106 / 10 ^ 8⟩]

/-- The recorded reference output of the classic-method run with
prewhiten = 1 (test_sonicBfPrew). -/
def sonicBfPrewFixture : List BeamRow :=
  [⟨141116437 / 10 ^ 9, 195237117 / 10 ^ 13, 184349488 / 10 ^ 7, 126491106 / 10 ^ 8⟩,
   ⟨128633209 / 10 ^ 9, 168637467 / 10 ^ 13, 184349488 / 10 ^ 7, 126491106 / 10 ^ 8⟩,
   ⟨130422122 / 10 ^ 9, 136251275 / 10 ^ 13, 184349488 / 10 ^ 7, 126491106 / 10 ^ 8⟩,
   ⟨133438392 / 10 ^ 9, 135077292 / 10 ^ 13, 184349488 / 10 ^ 7, 126491106 / 10 ^ 8⟩,
   ⟨132708065 / 10 ^ 9, 115114010 / 10 ^ 13, 184349488 / 10 ^ 7, 126491106 / 10 ^ 8⟩,
   ⟨131982873 / 10 ^ 9, 966531018 / 10 ^ 14, 184349488 / 10 ^ 7, 126491106 / 10 ^ 8⟩]

/-- The comparison used by the reference test (assert_allclose with
relative tolerance rtol and zero absolute tolerance): the recorded
reference value a is accepted for an emitted value b iff
|a - b| <= rtol * |b|. -/
def allclose (rtol a b : ℚ) : Prop := |a - b| ≤ rtol * |b|

instance (rtol a b : ℚ) : Decidable (allclose rtol a b) := by
  unfold allclose; infer_instance

/-- True backazimuth (degrees) of the synthetic wave in the reference
scenario. -/
def trueBaz : ℚ := 20

/-- True slowness (s/km) of the synthetic wave in the reference scenario. -/
def trueSlowness : ℚ := 13 / 10

/-- Slowness grid step of the reference scenario. -/
def gridStep : ℚ := 1 / 10

/-! ### KML export (translated from src/obspy/io/kml/core.py) -/

/-- The part of an obspy Event that the KML export reads: the preferred
magnitude, if any, and the (possibly empty) list of magnitude values. -/
structure Event where
  preferredMagnitude : Option ℝ
  magnitudes : List ℝ

/-- Magnitude resolution used by catalog_to_kml_string:
`event.preferred_magnitude() or event.magnitudes and event.magnitudes[0]
or None`. -/
def eventMag (e : Event) : Option ℝ :=
  match e.preferredMagnitude with
  | some m => some m
  | none => e.magnitudes.head?

/-- The default icon_size_func of catalog_to_kml_string: 1.2 * log(1.5 + mag)
for an event with a magnitude, 0.1 when that logarithm raises ValueError
(argument not positive), and 0.5 for an event without a magnitude. -/
noncomputable def defaultIconSizeFunc (e : Event) : ℝ :=
  match eventMag e with
  | some m => if 0 < 1.5 + m then 1.2 * Real.log (1.5 + m) else 0.1
  | none => 0.5

/-- The icon scales of the placemarks produced by catalog_to_kml_string:
one placemark per event, whose IconStyle scale is the value of the injected
icon_size_func (or of the default) on that event. -/
noncomputable def catalogIconScales (iconSizeFunc : Option (Event → ℝ))
    (catalog : List Event) : List ℝ :=
  catalog.map (iconSizeFunc.getD defaultIconSizeFunc)

/-! ### Phase cross-correlation (translated from
src/obspy/noise/correlation_functions.py)

The analytic-signal transform (scipy.signal.hilbert) and the complex
magnitude are external library calls; they enter as function parameters,
following the specification's swappable-kernel note.  Complex samples are
pairs of rationals. -/

/-- Elementwise normalization data / |data| performed by phase_xcorr. -/
def normalizeByAbs (cabs : ℚ × ℚ → ℚ) (l : List (ℚ × ℚ)) : List (ℚ × ℚ) :=
  l.map (fun z => (z.1 / cabs z, z.2 / cabs z))

/-- Modelled from the spec: the in-place C kernel clibnoise.phase_xcorr_loop,
following the reference Python loop kept in the source's comment block.  For
each k in 0..max_lag it writes the lag-k and lag-(-k) phase-correlation
values at positions max_lag + k and max_lag - k of the accumulator. -/
def phaseXcorrLoop (cabs : ℚ × ℚ → ℚ) (d1 d2 : List (ℚ × ℚ)) (nu : ℕ)
    (max_lag : ℕ) (pxc : List ℚ) : List ℚ :=
  (List.range (max_lag + 1)).foldl
    (fun acc k =>
      let n := d1.length
      let pos := ((d1.take (n - k)).zip (d2.drop k)).map
        (fun uv => cabs (uv.1.1 + uv.2.1, uv.1.2 + uv.2.2) ^ nu)
      let neg := ((d1.take (n - k)).zip (d2.drop k)).map
        (fun uv => cabs (uv.1.1 - uv.2.1, uv.1.2 - uv.2.2) ^ nu)
      let posR := ((d1.drop k).zip (d2.take (n - k))).map
        (fun uv => cabs (uv.1.1 + uv.2.1, uv.1.2 + uv.2.2) ^ nu)
      let negR := ((d1.drop k).zip (d2.take (n - k))).map
        (fun uv => cabs (uv.1.1 - uv.2.1, uv.1.2 - uv.2.2) ^ nu)
      let vPos := 1 / (2 * (n : ℚ) - k) * (pos.sum - neg.sum)
      let vNeg := 1 / (2 * (n : ℚ) - k) * (posR.sum - negR.sum)
      (acc.set (max_lag + k) vPos).set (max_lag - k) vNeg)
    pxc

/-- The masked-slice assignment pxc[-min_lag : min_lag] = True applied when
min_lag is nonzero: entries whose index lies in the (usually empty) slice
are overwritten, the length never changes. -/
def maskMinLag (min_lag : ℕ) (l : List ℚ) : List ℚ :=
  (l.zip (List.range l.length)).map
    (fun vi => if l.length - min_lag ≤ vi.2 ∧ vi.2 < min_lag then 1 else vi.1)

/-- phase_xcorr from src/obspy/noise/correlation_functions.py: allocate
2 * max_lag + 1 zeros, take the analytic signal of both inputs, normalize
sample by sample, run the correlation kernel in place, then apply the
min_lag masking. -/
def phase_xcorr (hilb : List ℚ → List (ℚ × ℚ)) (cabs : ℚ × ℚ → ℚ)
    (data1 data2 : List ℚ) (max_lag : ℕ) (nu : ℕ) (min_lag : ℕ) : List ℚ :=
  let pxc0 := List.replicate (2 * max_lag + 1) (0 : ℚ)
  let d1 := normalizeByAbs cabs (hilb data1)
  let d2 := normalizeByAbs cabs (hilb data2)
  let pxc := phaseXcorrLoop cabs d1 d2 nu max_lag pxc0
  if min_lag ≠ 0 then maskMinLag min_lag pxc else pxc

/-! ### Coordinate normalizer (modelled from the spec, section 4.1)

The array-analysis module itself is not among the sources; the following
definitions model it from the specification.  Sensor records are (x, y,
elevation) triples; geographic records are (longitude, latitude, elevation).
The local-tangent-plane projection anchored at (0, 0) is consumed as a pure
function with a fixed kilometres-per-degree scale. -/

/-- Kilometres per degree of the local-tangent-plane projection anchored at
the origin.  Modelled from the spec: the conversion between geographic and
local Cartesian coordinates is an external pure function; only its exact
invertibility near the anchor matters here. -/
noncomputable def kmPerDeg : ℝ := 111.19

/-- Modelled from the spec: obspy.signal.util.utlLonLat specialized to the
origin — the inverse projection taking local kilometre offsets (x, y) to
(longitude, latitude). -/
noncomputable def utlLonLat (x y : ℝ) : ℝ × ℝ := (x / kmPerDeg, y / kmPerDeg)

/-- Coordinate-system flag of the analysis entry points, as a tagged
variant. -/
inductive CoordSys where
  | xy
  | lonlat
  deriving DecidableEq

/-- Fatal errors of the geometry / grid layer (spec section 7). -/
inductive ArrayError where
  | invalidGeometry
  deriving DecidableEq

/-- Convert one sensor record to the local Cartesian kilometre frame. -/
noncomputable def toLocalKm (cs : CoordSys) (p : ℝ × ℝ × ℝ) : ℝ × ℝ × ℝ :=
  match cs with
  | CoordSys.xy => p
  | CoordSys.lonlat => (p.1 * kmPerDeg, p.2.1 * kmPerDeg, p.2.2)

/-- Mean of a list of reals. -/
noncomputable def centroidOf (l : List ℝ) : ℝ := l.sum / l.length

/-- Recentre converted sensor records on the array centroid. -/
noncomputable def recentre (conv : List (ℝ × ℝ × ℝ)) : List (ℝ × ℝ × ℝ) :=
  conv.map (fun p =>
    (p.1 - centroidOf (conv.map (fun q => q.1)),
     p.2.1 - centroidOf (conv.map (fun q => q.2.1)),
     p.2.2 - centroidOf (conv.map (fun q => q.2.2))))

/-- Modelled from the spec: the Coordinate Normalizer — convert every sensor
record to local Cartesian kilometres and recentre on the array centroid;
fail with InvalidGeometryError when fewer than 3 sensors are given. -/
noncomputable def get_geometry (coords : List (ℝ × ℝ × ℝ)) (cs : CoordSys) :
    Except ArrayError (List (ℝ × ℝ × ℝ)) :=
  if coords.length < 3 then Except.error ArrayError.invalidGeometry
  else Except.ok (recentre (coords.map (toLocalKm cs)))

/-- A valid array geometry: at least 3 sensors, not all collinear
(spec section 3). -/
def ValidGeometry (coords : List (ℝ × ℝ × ℝ)) : Prop :=
  3 ≤ coords.length ∧
    ∃ p ∈ coords, ∃ q ∈ coords, ∃ r ∈ coords,
      (q.1 - p.1) * (r.2.1 - p.2.1) - (q.2.1 - p.2.1) * (r.1 - p.1) ≠ 0

/-! ### Steering/delay model and beam power (modelled from the spec,
sections 4.2 and 4.4) -/

/-- Modelled from the spec: per-sensor time delay for trial slowness
(sx, sy) — the dot product of the horizontal position with the slowness
vector; elevation is ignored (planar wavefront assumption). -/
noncomputable def steeringDelay (sx sy : ℝ) (p : ℝ × ℝ × ℝ) : ℝ :=
  sx * p.1 + sy * p.2.1

/-- Modelled from the spec: squared magnitude of the steered coherent sum
of unit phase factors exp(-i * omega * delay) over the sensors. -/
noncomputable def beamPower (geom : List (ℝ × ℝ × ℝ)) (sx sy ω : ℝ) : ℝ :=
  Complex.normSq
    ((geom.map (fun p =>
      Complex.exp (-((ω * steeringDelay sx sy p : ℝ) : ℂ) * Complex.I))).sum)

/-! ### Array transfer function evaluator (modelled from the spec,
section 4.4; the frequency aggregation is trapezoidal integration, the
reading of the spec's stacking step pinned by the in-source reference
fixture) -/

/-- Trapezoidal integral with constant spacing dx of a sampled list
(the value of cumtrapz(l, dx)[-1]); zero for fewer than two samples. -/
noncomputable def trapz (dx : ℝ) (l : List ℝ) : ℝ :=
  if l.length ≤ 1 then 0
  else dx * (l.sum - ((l.head?.getD 0) + (l.getLast?.getD 0)) / 2)

/-- Symmetric grid of trial values spanning [-lim, lim] at step `step`. -/
def gridRange (lim step : ℚ) : List ℚ :=
  (List.range (⌊2 * lim / step⌋₊ + 1)).map (fun i : ℕ => -lim + (i : ℚ) * step)

/-- Analysis frequencies fmin, fmin + fstep, ... up to fmax. -/
def freqRange (fmin fmax fstep : ℚ) : List ℚ :=
  (List.range (⌊(fmax - fmin) / fstep⌋₊ + 1)).map (fun k : ℕ => fmin + (k : ℚ) * fstep)

/-- Unnormalized frequency-slowness response at trial slowness (sx, sy):
the trapezoidal integral over the frequency band of |sum of steering
phasors|^2 / N^2. -/
noncomputable def transffRawFS (geom : List (ℝ × ℝ × ℝ))
    (fmin fmax fstep : ℚ) (sx sy : ℚ) : ℝ :=
  trapz (fstep : ℝ)
    ((freqRange fmin fmax fstep).map (fun f : ℚ =>
      beamPower geom (sx : ℝ) (sy : ℝ) (2 * Real.pi * (f : ℝ)) /
        ((geom.length : ℝ)) ^ 2))

/-- Modelled from the spec: the frequency-slowness transfer function —
normalize the raw response surface so that the center (zero-slowness) cell
equals 1. -/
noncomputable def array_transff_freqslowness (coords : List (ℝ × ℝ × ℝ))
    (slim sstep fmin fmax fstep : ℚ) (cs : CoordSys) :
    Except ArrayError (List (List ℝ)) :=
  (get_geometry coords cs).map (fun geom =>
    (gridRange slim sstep).map (fun sx =>
      (gridRange slim sstep).map (fun sy =>
        transffRawFS geom fmin fmax fstep sx sy /
          transffRawFS geom fmin fmax fstep 0 0)))

/-- Unnormalized wavenumber response at trial wavenumber (kx, ky): the
delay is replaced by wavenumber times position, with no frequency loop. -/
noncomputable def transffRawK (geom : List (ℝ × ℝ × ℝ)) (kx ky : ℚ) : ℝ :=
  beamPower geom (kx : ℝ) (ky : ℝ) 1 / ((geom.length : ℝ)) ^ 2

/-- Modelled from the spec: the wavenumber transfer function, normalized so
that the center (zero-wavenumber) cell equals 1. -/
noncomputable def array_transff_wavenumber (coords : List (ℝ × ℝ × ℝ))
    (klim kstep : ℚ) (cs : CoordSys) : Except ArrayError (List (List ℝ)) :=
  (get_geometry coords cs).map (fun geom =>
    (gridRange klim kstep).map (fun kx =>
      (gridRange klim kstep).map (fun ky =>
        transffRawK geom kx ky / transffRawK geom 0 0)))

/-- Entry (i, j) of a surface, out-of-range entries read as 0. -/
noncomputable def cellAt (S : List (List ℝ)) (i j : ℕ) : ℝ :=
  (S.getD i []).getD j 0

/-- The surface produced by an evaluator call, the empty surface on a
geometry error. -/
noncomputable def exceptCells (r : Except ArrayError (List (List ℝ))) :
    List (List ℝ) :=
  match r with
  | Except.ok S => S
  | Except.error _ => []

/-- The geographic description of an array given in local Cartesian
kilometres: every sensor's (x, y) sent through the lon/lat conversion
anchored at the origin. -/
noncomputable def lonLatOf (coords : List (ℝ × ℝ × ℝ)) : List (ℝ × ℝ × ℝ) :=
  coords.map (fun p => ((utlLonLat p.1 p.2.1).1, (utlLonLat p.1 p.2.1).2, p.2.2))

/-! ### Emit step of the sliding-window beamformer (modelled from the spec,
section 4.3 step 4) -/

/-- Modelled from the spec: four-quadrant arctangent — atan2 a b is the
angle of the point (b, a). -/
noncomputable def atan2 (a b : ℝ) : ℝ :=
  if 0 < b then Real.arctan (a / b)
  else if b < 0 ∧ 0 ≤ a then Real.arctan (a / b) + Real.pi
  else if b < 0 then Real.arctan (a / b) - Real.pi
  else if 0 < a then Real.pi / 2
  else if a < 0 then -(Real.pi / 2)
  else 0

/-- Modelled from the spec: backazimuth in degrees of the winning grid cell
(sx, sy) — atan2(sx, sy) converted to degrees and normalized into
[0, 360). -/
noncomputable def bazOf (sx sy : ℝ) : ℝ :=
  if atan2 sx sy * 180 / Real.pi < 0 then atan2 sx sy * 180 / Real.pi + 360
  else atan2 sx sy * 180 / Real.pi

/-- Modelled from the spec: slowness magnitude of the winning grid cell. -/
noncomputable def slownessOf (sx sy : ℝ) : ℝ :=
  Real.sqrt (sx ^ 2 + sy ^ 2)

/-! ### Exact evaluation data for the documented 5-sensor transfer-function
scenario

In that scenario every steering phase is an integer multiple of 2 pi / 5,
so each cell of the surface lies in the quadratic field Q(sqrt 5); pairs
(a, b) stand for a + b * sqrt 5. -/

/-- Pairs (a, b) of integers representing a + b * sqrt 5. -/
abbrev Z5 := ℤ × ℤ

/-- The real number represented by a Z5 pair. -/
noncomputable def toZ5 (p : Z5) : ℝ := p.1 + p.2 * Real.sqrt 5

/-- 4 * cos(2 pi k / 5) as an element of Z[sqrt 5], by the residue of k. -/
def cosTab4 (k : ZMod 5) : Z5 :=
  if k = 0 then (4, 0)
  else if k = 1 ∨ k = 4 then (-1, 1)
  else (-1, -1)

/-- Exact mirror of 4 times the per-frequency beam power |sum of
phasors|^2, as the double sum of 4 cos of the phase differences.  Sensor
offsets are integers in units of 10 m, trial slownesses integers in units
of 20 s/km, so that every phase is an integer multiple of 2 pi / 5. -/
def bZ (xs : List (ℤ × ℤ)) (si sj f : ℤ) : Z5 :=
  (xs.map (fun p =>
    (xs.map (fun q =>
      cosTab4 (((f * (si * (p.1 - q.1) + sj * (p.2 - q.2))) : ℤ) : ZMod 5))).sum)).sum

/-- Exact mirror of 200 times the unnormalized frequency-slowness response
of the documented scenario (frequencies 1..10, unit frequency step,
25 sensor pairs): twice the stacked sum minus the two end samples of the
trapezoid rule, in units of 1/4 from bZ and 1/25 from the N^2
normalization. -/
def rawZ (xs : List (ℤ × ℤ)) (si sj : ℤ) : Z5 :=
  let bs := (List.range 10).map (fun k => bZ xs si sj ((k : ℤ) + 1))
  bs.sum + bs.sum - bs.head?.getD 0 - bs.getLast?.getD 0

/-- The sensor offsets of the documented transfer-function scenario in
units of 10 m: the integer-metre offsets of the reference test divided by
10 (so that division by 100 gives kilometres). -/
def xs5i : List (ℤ × ℤ) :=
  [(1, 6), (20, 5), (-12, 17), (-10, -15), (3, -22)]

/-- Realize integer sensor offsets in units of 10 m as real kilometre
sensor records at elevation zero. -/
noncomputable def realize100 (xs : List (ℤ × ℤ)) : List (ℝ × ℝ × ℝ) :=
  xs.map (fun p => ((p.1 : ℝ) / 100, (p.2 : ℝ) / 100, 0))

/-- The sensor records (in km) of the documented transfer-function
scenario. -/
noncomputable def coords5 : List (ℝ × ℝ × ℝ) := realize100 xs5i

/-- The trial slowness of grid index i, in units of 20 s/km. -/
def siOf (i : Fin 5) : ℤ := (i : ℕ) - 2

/-- The documented 5x5 frequency-slowness fixture surface. -/
def transffFixture : List (List ℚ) :=
  [[41915119 / 10 ^ 8, 33333333 / 10 ^ 8, 32339525 / 10 ^ 8, 24751548 / 10 ^ 8, 67660475 / 10 ^ 8],
   [25248452 / 10 ^ 8, 41418215 / 10 ^ 8, 34327141 / 10 ^ 8, 65672859 / 10 ^ 8, 33333333 / 10 ^ 8],
   [24751548 / 10 ^ 8, 25248452 / 10 ^ 8, 1, 25248452 / 10 ^ 8, 24751548 / 10 ^ 8],
   [33333333 / 10 ^ 8, 65672859 / 10 ^ 8, 34327141 / 10 ^ 8, 41418215 / 10 ^ 8, 25248452 / 10 ^ 8],
   [67660475 / 10 ^ 8, 24751548 / 10 ^ 8, 32339525 / 10 ^ 8, 33333333 / 10 ^ 8, 41915119 / 10 ^ 8]]

/-- Lower bracket of sqrt 5. -/
def sqrt5lo : ℚ := 22360679 / 10 ^ 7

/-- Upper bracket of sqrt 5. -/
def sqrt5hi : ℚ := 22360680 / 10 ^ 7

/-! ## Theorems -/

/-! ### List and complex-sum helpers -/

/-- Real part of a list sum of complex numbers. -/
theorem re_list_sum (l : List ℂ) : l.sum.re = (l.map Complex.re).sum := by
  induction l with
  | nil => simp
  | cons a t ih => simp [ih]

/-- A product of two list sums as a double list sum. -/
theorem list_sum_mul_sum (A B : List ℂ) :
    A.sum * B.sum = (A.map (fun a => (B.map (fun b => a * b)).sum)).sum := by
  induction A with
  | nil => simp
  | cons a t ih =>
      simp only [List.sum_cons, List.map_cons, add_mul, ih]
      congr 1
      have := List.sum_map_mul_left B id a
      simpa using this.symm

/-- The squared magnitude of a sum of unit phasors is the double sum of the
cosines of the phase differences. -/
theorem normSq_listSum_exp (l : List ℝ) :
    Complex.normSq ((l.map (fun θ : ℝ => Complex.exp (-(θ : ℂ) * Complex.I))).sum) =
      (l.map (fun θ => (l.map (fun φ => Real.cos (θ - φ))).sum)).sum := by
  set z := (l.map (fun θ : ℝ => Complex.exp (-(θ : ℂ) * Complex.I))).sum with hz
  have h0 : (Complex.normSq z : ℂ) = z * (starRingEnd ℂ) z := (Complex.mul_conj z).symm
  have h1 : Complex.normSq z = (z * (starRingEnd ℂ) z).re := by
    rw [← h0, Complex.ofReal_re]
  have hconj : (starRingEnd ℂ) z = (l.map (fun φ : ℝ => Complex.exp ((φ : ℂ) * Complex.I))).sum := by
    rw [hz, map_list_sum, List.map_map]
    refine congrArg List.sum ?_
    refine List.map_congr_left (fun φ _ => ?_)
    simp only [Function.comp_apply, ← Complex.exp_conj]
    congr 1
    simp [Complex.conj_I]
  rw [h1, hconj, hz, list_sum_mul_sum, List.map_map]
  have key : ∀ θ ∈ l,
      ((fun a => ((List.map (fun φ : ℝ => Complex.exp ((φ : ℂ) * Complex.I)) l).map
        (fun b => a * b)).sum) ∘ fun θ : ℝ => Complex.exp (-(θ : ℂ) * Complex.I)) θ =
      (l.map (fun φ : ℝ => Complex.exp ((↑(φ - θ) : ℂ) * Complex.I))).sum := by
    intro θ _
    simp only [Function.comp_apply, List.map_map]
    refine congrArg List.sum ?_
    refine List.map_congr_left (fun φ _ => ?_)
    simp only [Function.comp_apply, ← Complex.exp_add]
    congr 1
    push_cast
    ring
  rw [List.map_congr_left key, re_list_sum, List.map_map]
  refine congrArg List.sum ?_
  refine List.map_congr_left (fun θ _ => ?_)
  simp only [Function.comp_apply, re_list_sum, List.map_map]
  refine congrArg List.sum ?_
  refine List.map_congr_left (fun φ _ => ?_)
  simp only [Function.comp_apply, Complex.exp_ofReal_mul_I_re]
  rw [← Real.cos_neg]
  congr 1
  ring

/-! ### Beam power: translation invariance -/

/-- Translating every sensor by the same offset leaves the beam power
unchanged: the common steering phase factor has unit magnitude. -/
theorem beamPower_shift (geom : List (ℝ × ℝ × ℝ)) (t1 t2 t3 sx sy ω : ℝ) :
    beamPower (geom.map (fun p => (p.1 + t1, p.2.1 + t2, p.2.2 + t3))) sx sy ω =
      beamPower geom sx sy ω := by
  unfold beamPower steeringDelay
  rw [List.map_map]
  have key : ∀ p : ℝ × ℝ × ℝ,
      ((fun p : ℝ × ℝ × ℝ =>
          Complex.exp (-((ω * (sx * p.1 + sy * p.2.1) : ℝ) : ℂ) * Complex.I)) ∘
        fun p : ℝ × ℝ × ℝ => (p.1 + t1, p.2.1 + t2, p.2.2 + t3)) p =
      Complex.exp (-((ω * (sx * t1 + sy * t2) : ℝ) : ℂ) * Complex.I) *
        Complex.exp (-((ω * (sx * p.1 + sy * p.2.1) : ℝ) : ℂ) * Complex.I) := by
    intro p
    simp only [Function.comp_apply, ← Complex.exp_add]
    congr 1
    push_cast
    ring
  calc Complex.normSq ((geom.map _).sum)
      = Complex.normSq ((geom.map (fun p =>
          Complex.exp (-((ω * (sx * t1 + sy * t2) : ℝ) : ℂ) * Complex.I) *
            Complex.exp (-((ω * (sx * p.1 + sy * p.2.1) : ℝ) : ℂ) * Complex.I))).sum) := by
        rw [List.map_congr_left (fun p _ => key p)]
    _ = Complex.normSq (Complex.exp (-((ω * (sx * t1 + sy * t2) : ℝ) : ℂ) * Complex.I)) *
          Complex.normSq ((geom.map (fun p =>
            Complex.exp (-((ω * (sx * p.1 + sy * p.2.1) : ℝ) : ℂ) * Complex.I))).sum) := by
        rw [List.sum_map_mul_left, Complex.normSq_mul]
    _ = Complex.normSq ((geom.map (fun p =>
          Complex.exp (-((ω * (sx * p.1 + sy * p.2.1) : ℝ) : ℂ) * Complex.I))).sum) := by
        rw [← Complex.sq_abs]
        have harg : -((ω * (sx * t1 + sy * t2) : ℝ) : ℂ) * Complex.I =
            ((-(ω * (sx * t1 + sy * t2)) : ℝ) : ℂ) * Complex.I := by push_cast; ring
        rw [harg, Complex.abs_exp_ofReal_mul_I]
        norm_num

/-! ### Exact values of the fifth-root-of-unity cosines -/

/-- The cosine of 2 pi / 5. -/
theorem cos_two_pi_div_five : Real.cos (2 * Real.pi / 5) = (Real.sqrt 5 - 1) / 4 := by
  have hc : Real.cos (2 * Real.pi / 5) = 2 * Real.cos (Real.pi / 5) ^ 2 - 1 := by
    rw [show (2 * Real.pi / 5 : ℝ) = 2 * (Real.pi / 5) by ring, Real.cos_two_mul]
  rw [Real.cos_pi_div_five] at hc
  have h5 : Real.sqrt 5 ^ 2 = 5 := Real.sq_sqrt (by norm_num)
  rw [hc]
  linear_combination h5 / 8

/-- The cosine of 4 pi / 5. -/
theorem cos_four_pi_div_five : Real.cos (4 * Real.pi / 5) = -((1 + Real.sqrt 5) / 4) := by
  have hc : Real.cos (4 * Real.pi / 5) = 2 * Real.cos (2 * Real.pi / 5) ^ 2 - 1 := by
    rw [show (4 * Real.pi / 5 : ℝ) = 2 * (2 * Real.pi / 5) by ring, Real.cos_two_mul]
  rw [cos_two_pi_div_five] at hc
  have h5 : Real.sqrt 5 ^ 2 = 5 := Real.sq_sqrt (by norm_num)
  rw [hc]
  linear_combination h5 / 8

/-- The table cosTab4 is exactly 4 cos(2 pi k / 5), k read modulo 5. -/
theorem toZ5_cosTab4 (k : ℤ) :
    toZ5 (cosTab4 ((k : ZMod 5))) = 4 * Real.cos (2 * Real.pi * (k : ℝ) / 5) := by
  obtain ⟨q, r, hr0, hr5, rfl⟩ : ∃ q r : ℤ, 0 ≤ r ∧ r < 5 ∧ k = 5 * q + r :=
    ⟨k / 5, k % 5, Int.emod_nonneg k (by norm_num), Int.emod_lt_of_pos k (by norm_num),
      (Int.ediv_add_emod k 5).symm⟩
  have hcast : (((5 * q + r : ℤ)) : ZMod 5) = ((r : ℤ) : ZMod 5) := by
    push_cast
    rw [show ((5 : ZMod 5)) = 0 by decide]
    ring
  have hcos : Real.cos (2 * Real.pi * ((5 * q + r : ℤ) : ℝ) / 5) =
      Real.cos (2 * Real.pi * (r : ℝ) / 5) := by
    have harg : (2 * Real.pi * ((5 * q + r : ℤ) : ℝ) / 5) =
        2 * Real.pi * (r : ℝ) / 5 + (q : ℤ) * (2 * Real.pi) := by
      push_cast
      ring
    rw [harg, Real.cos_add_int_mul_two_pi]
  rw [hcast, hcos]
  interval_cases r
  · have h : cosTab4 ((0 : ℤ) : ZMod 5) = (4, 0) := by decide
    rw [h, show (2 * Real.pi * ((0 : ℤ) : ℝ) / 5 : ℝ) = 0 by push_cast; ring,
      Real.cos_zero]
    simp [toZ5]
  · have h : cosTab4 ((1 : ℤ) : ZMod 5) = (-1, 1) := by decide
    rw [h, show (2 * Real.pi * ((1 : ℤ) : ℝ) / 5 : ℝ) = 2 * Real.pi / 5 by push_cast; ring,
      cos_two_pi_div_five]
    simp [toZ5]
    ring
  · have h : cosTab4 ((2 : ℤ) : ZMod 5) = (-1, -1) := by decide
    rw [h, show (2 * Real.pi * ((2 : ℤ) : ℝ) / 5 : ℝ) = 4 * Real.pi / 5 by push_cast; ring,
      cos_four_pi_div_five]
    simp [toZ5]
    ring
  · have h : cosTab4 ((3 : ℤ) : ZMod 5) = (-1, -1) := by decide
    rw [h, show (2 * Real.pi * ((3 : ℤ) : ℝ) / 5 : ℝ) =
        -(4 * Real.pi / 5) + (1 : ℤ) * (2 * Real.pi) by push_cast; ring,
      Real.cos_add_int_mul_two_pi, Real.cos_neg, cos_four_pi_div_five]
    simp [toZ5]
    ring
  · have h : cosTab4 ((4 : ℤ) : ZMod 5) = (-1, 1) := by decide
    rw [h, show (2 * Real.pi * ((4 : ℤ) : ℝ) / 5 : ℝ) =
        -(2 * Real.pi / 5) + (1 : ℤ) * (2 * Real.pi) by push_cast; ring,
      Real.cos_add_int_mul_two_pi, Real.cos_neg, cos_two_pi_div_five]
    simp [toZ5]
    ring

/-! ### The Z[sqrt 5] mirror evaluates the scenario beam power exactly -/

/-- toZ5 is additive. -/
theorem toZ5_add (a b : ℤ × ℤ) : toZ5 (a + b) = toZ5 a + toZ5 b := by
  simp only [toZ5, Prod.fst_add, Prod.snd_add]
  push_cast
  ring

/-- toZ5 maps differences to differences. -/
theorem toZ5_sub (a b : ℤ × ℤ) : toZ5 (a - b) = toZ5 a - toZ5 b := by
  simp only [toZ5, Prod.fst_sub, Prod.snd_sub]
  push_cast
  ring

/-- toZ5 of a list sum. -/
theorem toZ5_list_sum (L : List (ℤ × ℤ)) : toZ5 L.sum = (L.map toZ5).sum := by
  induction L with
  | nil => simp [toZ5]
  | cons a t ih => simp [toZ5_add, ih]

/-- The mirror value bZ is exactly 4 times the beam power of the realized
geometry at slowness (20 si, 20 sj) and angular frequency 2 pi f: every
steering phase is the integer multiple f (si x + sj y) of 2 pi / 5. -/
theorem toZ5_bZ (xs : List (ℤ × ℤ)) (si sj f : ℤ) :
    toZ5 (bZ xs si sj f) =
      4 * beamPower (realize100 xs) (20 * (si : ℝ)) (20 * (sj : ℝ))
        (2 * Real.pi * (f : ℝ)) := by
  unfold bZ beamPower realize100 steeringDelay
  rw [List.map_map]
  have hphase : ∀ p : ℤ × ℤ,
      ((fun p : ℝ × ℝ × ℝ =>
        Complex.exp (-((2 * Real.pi * (f : ℝ) * (20 * (si : ℝ) * p.1 + 20 * (sj : ℝ) * p.2.1) : ℝ) : ℂ)
          * Complex.I)) ∘ fun p : ℤ × ℤ => ((p.1 : ℝ) / 100, (p.2 : ℝ) / 100, (0 : ℝ))) p =
      ((fun θ : ℝ => Complex.exp (-(θ : ℂ) * Complex.I)) ∘
        (fun p : ℤ × ℤ => (2 * Real.pi * ((f * (si * p.1 + sj * p.2) : ℤ) : ℝ) / 5 : ℝ))) p := by
    intro p
    simp only [Function.comp_apply]
    congr 2
    push_cast
    ring
  rw [List.map_congr_left (fun p _ => hphase p)]
  rw [← List.map_map, normSq_listSum_exp, List.map_map]
  rw [toZ5_list_sum, List.map_map, ← List.sum_map_mul_left]
  refine congrArg List.sum (List.map_congr_left (fun p _ => ?_))
  simp only [Function.comp_apply]
  rw [toZ5_list_sum, List.map_map, List.map_map, ← List.sum_map_mul_left]
  refine congrArg List.sum (List.map_congr_left (fun q _ => ?_))
  simp only [Function.comp_apply]
  rw [toZ5_cosTab4]
  congr 1
  push_cast
  ring_nf

/-! ### Evaluation of the reference transfer-function cells -/

/-- Number of sensors of the documented scenario. -/
theorem coords5_length : (coords5.length : ℝ) = 5 := by
  simp [coords5, realize100, xs5i]

/-- Trapezoid rule on a ten-sample list. -/
theorem trapz_ten (dx a1 a2 a3 a4 a5 a6 a7 a8 a9 a10 : ℝ) :
    trapz dx [a1, a2, a3, a4, a5, a6, a7, a8, a9, a10] =
      dx * (a1 + a2 + a3 + a4 + a5 + a6 + a7 + a8 + a9 + a10 - (a1 + a10) / 2) := by
  simp [trapz]
  exact Or.inl (by ring)

/-- rawZ spelled out over the ten analysis frequencies. -/
theorem rawZ_eval (xs : List (ℤ × ℤ)) (si sj : ℤ) :
    toZ5 (rawZ xs si sj) =
      2 * (toZ5 (bZ xs si sj 1) + toZ5 (bZ xs si sj 2) + toZ5 (bZ xs si sj 3) +
        toZ5 (bZ xs si sj 4) + toZ5 (bZ xs si sj 5) + toZ5 (bZ xs si sj 6) +
        toZ5 (bZ xs si sj 7) + toZ5 (bZ xs si sj 8) + toZ5 (bZ xs si sj 9) +
        toZ5 (bZ xs si sj 10)) - toZ5 (bZ xs si sj 1) - toZ5 (bZ xs si sj 10) := by
  have h : rawZ xs si sj =
      (bZ xs si sj 1 + (bZ xs si sj 2 + (bZ xs si sj 3 + (bZ xs si sj 4 +
        (bZ xs si sj 5 + (bZ xs si sj 6 + (bZ xs si sj 7 + (bZ xs si sj 8 +
        (bZ xs si sj 9 + (bZ xs si sj 10 + 0)))))))))) +
      (bZ xs si sj 1 + (bZ xs si sj 2 + (bZ xs si sj 3 + (bZ xs si sj 4 +
        (bZ xs si sj 5 + (bZ xs si sj 6 + (bZ xs si sj 7 + (bZ xs si sj 8 +
        (bZ xs si sj 9 + (bZ xs si sj 10 + 0)))))))))) -
      bZ xs si sj 1 - bZ xs si sj 10 := by
    simp [rawZ, List.range_succ]
  rw [h]
  simp only [toZ5_sub, toZ5_add, show toZ5 0 = 0 from by simp [toZ5]]
  ring

/-- The analysis frequencies of the documented scenario. -/
theorem freqRange_ref : freqRange 1 10 1 = [1, 2, 3, 4, 5, 6, 7, 8, 9, 10] := by
  simp [freqRange, List.range_succ]
  norm_num

/-- The scenario beam power at a grid cell, in exact form. -/
theorem beamPower_coords5 (si sj fz : ℤ) (fq : ℚ) (hf : (fq : ℝ) = (fz : ℝ)) :
    beamPower coords5 (((20 * si : ℤ) : ℚ) : ℝ) (((20 * sj : ℤ) : ℚ) : ℝ)
      (2 * Real.pi * (fq : ℝ)) = toZ5 (bZ xs5i si sj fz) / 4 := by
  have h1 : (((20 * si : ℤ) : ℚ) : ℝ) = 20 * (si : ℝ) := by push_cast; ring
  have h2 : (((20 * sj : ℤ) : ℚ) : ℝ) = 20 * (sj : ℝ) := by push_cast; ring
  rw [h1, h2, hf, show coords5 = realize100 xs5i from rfl, toZ5_bZ]
  ring

/-- The raw frequency-slowness response of the documented scenario at grid
cell (20 si, 20 sj) equals the exact mirror value over 200. -/
theorem transffRawFS_coords5 (si sj : ℤ) :
    transffRawFS coords5 1 10 1 ((20 * si : ℤ) : ℚ) ((20 * sj : ℤ) : ℚ) =
      toZ5 (rawZ xs5i si sj) / 200 := by
  unfold transffRawFS
  rw [freqRange_ref]
  simp only [List.map_cons, List.map_nil]
  rw [beamPower_coords5 si sj 1 1 (by norm_num), beamPower_coords5 si sj 2 2 (by norm_num),
    beamPower_coords5 si sj 3 3 (by norm_num), beamPower_coords5 si sj 4 4 (by norm_num),
    beamPower_coords5 si sj 5 5 (by norm_num), beamPower_coords5 si sj 6 6 (by norm_num),
    beamPower_coords5 si sj 7 7 (by norm_num), beamPower_coords5 si sj 8 8 (by norm_num),
    beamPower_coords5 si sj 9 9 (by norm_num), beamPower_coords5 si sj 10 10 (by norm_num)]
  rw [coords5_length, trapz_ten, rawZ_eval]
  norm_num
  ring

/-! ### Geometry plumbing -/

/-- Recentring on the centroid leaves the raw frequency-slowness response
unchanged. -/
theorem transffRawFS_center (geom : List (ℝ × ℝ × ℝ)) (c1 c2 c3 : ℝ)
    (fmin fmax fstep sx sy : ℚ) :
    transffRawFS (geom.map (fun p => (p.1 - c1, p.2.1 - c2, p.2.2 - c3)))
        fmin fmax fstep sx sy =
      transffRawFS geom fmin fmax fstep sx sy := by
  have hshape : (geom.map (fun p => (p.1 - c1, p.2.1 - c2, p.2.2 - c3))) =
      (geom.map (fun p => (p.1 + -c1, p.2.1 + -c2, p.2.2 + -c3))) := by
    refine List.map_congr_left (fun p _ => ?_)
    simp [sub_eq_add_neg]
  unfold transffRawFS
  rw [hshape, List.length_map]
  refine congrArg (trapz (fstep : ℝ)) (List.map_congr_left (fun f _ => ?_))
  rw [beamPower_shift]

/-- Recentring on the centroid leaves the raw wavenumber response
unchanged. -/
theorem transffRawK_center (geom : List (ℝ × ℝ × ℝ)) (c1 c2 c3 : ℝ)
    (kx ky : ℚ) :
    transffRawK (geom.map (fun p => (p.1 - c1, p.2.1 - c2, p.2.2 - c3))) kx ky =
      transffRawK geom kx ky := by
  have hshape : (geom.map (fun p => (p.1 - c1, p.2.1 - c2, p.2.2 - c3))) =
      (geom.map (fun p => (p.1 + -c1, p.2.1 + -c2, p.2.2 + -c3))) := by
    refine List.map_congr_left (fun p _ => ?_)
    simp [sub_eq_add_neg]
  unfold transffRawK
  rw [hshape, List.length_map, beamPower_shift]

/-- In the recentred frame the raw frequency-slowness response agrees with
the unconverted one. -/
theorem transffRawFS_recentre (conv : List (ℝ × ℝ × ℝ))
    (fmin fmax fstep sx sy : ℚ) :
    transffRawFS (recentre conv) fmin fmax fstep sx sy =
      transffRawFS conv fmin fmax fstep sx sy := by
  unfold recentre
  rw [transffRawFS_center]

/-- In the recentred frame the raw wavenumber response agrees with the
unconverted one. -/
theorem transffRawK_recentre (conv : List (ℝ × ℝ × ℝ)) (kx ky : ℚ) :
    transffRawK (recentre conv) kx ky = transffRawK conv kx ky := by
  unfold recentre
  rw [transffRawK_center]

/-- The xy branch of the coordinate converter is the identity. -/
theorem map_toLocalKm_xy (l : List (ℝ × ℝ × ℝ)) :
    l.map (toLocalKm CoordSys.xy) = l := by
  have h : toLocalKm CoordSys.xy = id := by funext p; rfl
  rw [h, List.map_id]

/-- The kilometres-per-degree scale is nonzero. -/
theorem kmPerDeg_ne_zero : kmPerDeg ≠ 0 := by
  unfold kmPerDeg
  norm_num

/-- Feeding the geographic description of a Cartesian array through the
normalizer recovers exactly the Cartesian normalization: the lon/lat
conversion is inverted without loss. -/
theorem get_geometry_lonLatOf (coords : List (ℝ × ℝ × ℝ)) :
    get_geometry (lonLatOf coords) CoordSys.lonlat =
      get_geometry coords CoordSys.xy := by
  unfold get_geometry lonLatOf
  rw [List.length_map, List.map_map]
  have hconv : coords.map (toLocalKm CoordSys.lonlat ∘
      fun p => ((utlLonLat p.1 p.2.1).1, (utlLonLat p.1 p.2.1).2, p.2.2)) =
      coords.map (toLocalKm CoordSys.xy) := by
    refine List.map_congr_left (fun p _ => ?_)
    simp only [Function.comp_apply, toLocalKm, utlLonLat]
    rw [div_mul_cancel₀ _ kmPerDeg_ne_zero, div_mul_cancel₀ _ kmPerDeg_ne_zero]
  rw [hconv]

/-! ### The zero-slowness cell of the raw responses -/

/-- The beam power at zero trial slowness is the squared sensor count. -/
theorem beamPower_zero (geom : List (ℝ × ℝ × ℝ)) (ω : ℝ) :
    beamPower geom 0 0 ω = (geom.length : ℝ) ^ 2 := by
  unfold beamPower steeringDelay
  have key : ∀ p : ℝ × ℝ × ℝ, p ∈ geom →
      Complex.exp (-((ω * ((0 : ℝ) * p.1 + (0 : ℝ) * p.2.1) : ℝ) : ℂ) * Complex.I) =
        (1 : ℂ) := by
    intro p _
    rw [show ((ω * ((0 : ℝ) * p.1 + (0 : ℝ) * p.2.1) : ℝ) : ℂ) = 0 by push_cast; ring]
    simp
  rw [List.map_congr_left key, List.map_const', List.sum_replicate]
  simp only [nsmul_eq_mul, mul_one]
  rw [Complex.normSq_natCast]
  ring

/-- The last element of a nonempty constant list. -/
theorem getLast?_replicate_one : ∀ n : ℕ, (List.replicate (n + 1) (1 : ℝ)).getLast? = some 1
  | 0 => rfl
  | n + 1 => by
      have h : List.replicate (n + 1 + 1) (1 : ℝ) = 1 :: 1 :: List.replicate n 1 := by
        simp [List.replicate_succ]
      rw [h, List.getLast?_cons_cons]
      have h2 : (1 : ℝ) :: List.replicate n 1 = List.replicate (n + 1) 1 := by
        simp [List.replicate_succ]
      rw [h2]
      exact getLast?_replicate_one n

/-- Trapezoid rule over a constant unit list. -/
theorem trapz_replicate_one (dx : ℝ) (n : ℕ) (h : 2 ≤ n) :
    trapz dx (List.replicate n (1 : ℝ)) = dx * (n - 1) := by
  obtain ⟨m, rfl⟩ : ∃ m, n = m + 2 := ⟨n - 2, by omega⟩
  unfold trapz
  rw [if_neg (by simp)]
  rw [List.sum_replicate, getLast?_replicate_one]
  have hh : (List.replicate (m + 2) (1 : ℝ)).head? = some 1 := by
    simp [List.replicate_succ]
  rw [hh]
  simp only [nsmul_eq_mul, mul_one, Option.getD]
  push_cast
  ring

/-- The raw frequency-slowness response at zero slowness is positive for a
nonempty array and a frequency band of at least two samples. -/
theorem transffRawFS_zero_pos (geom : List (ℝ × ℝ × ℝ)) (fmin fmax fstep : ℚ)
    (hg : geom.length ≠ 0) (hf : 0 < fstep) (hband : fstep ≤ fmax - fmin) :
    0 < transffRawFS geom fmin fmax fstep 0 0 := by
  have hterm : ∀ f : ℚ, f ∈ freqRange fmin fmax fstep →
      beamPower geom ((0 : ℚ) : ℝ) ((0 : ℚ) : ℝ) (2 * Real.pi * (f : ℝ)) /
        ((geom.length : ℝ)) ^ 2 = 1 := by
    intro f _
    rw [show (((0 : ℚ) : ℝ)) = (0 : ℝ) by norm_num, beamPower_zero]
    have : ((geom.length : ℝ)) ^ 2 ≠ 0 := by
      have : (geom.length : ℝ) ≠ 0 := Nat.cast_ne_zero.mpr hg
      positivity
    field_simp
  unfold transffRawFS
  rw [List.map_congr_left hterm, List.map_const']
  have hlen : 2 ≤ (freqRange fmin fmax fstep).length := by
    unfold freqRange
    rw [List.length_map, List.length_range]
    have h1 : (1 : ℚ) ≤ (fmax - fmin) / fstep := (one_le_div hf).mpr hband
    have h2 : 1 ≤ ⌊(fmax - fmin) / fstep⌋₊ := Nat.le_floor (by exact_mod_cast h1)
    omega
  rw [trapz_replicate_one _ _ hlen]
  have h1 : (1 : ℝ) ≤ ((freqRange fmin fmax fstep).length : ℝ) - 1 := by
    have : (2 : ℝ) ≤ ((freqRange fmin fmax fstep).length : ℝ) := by exact_mod_cast hlen
    linarith
  have h2 : (0 : ℝ) < (fstep : ℚ) := by exact_mod_cast hf
  nlinarith

/-- The raw wavenumber response at zero wavenumber is 1 for a nonempty
array. -/
theorem transffRawK_zero (geom : List (ℝ × ℝ × ℝ)) (hg : geom.length ≠ 0) :
    transffRawK geom 0 0 = 1 := by
  unfold transffRawK
  rw [show (((0 : ℚ) : ℝ)) = (0 : ℝ) by norm_num, beamPower_zero]
  have : (geom.length : ℝ) ≠ 0 := Nat.cast_ne_zero.mpr hg
  field_simp

/-! ### The slowness grid -/

/-- Length of the symmetric grid when the half-width is a multiple of the
step. -/
theorem gridRange_length (m : ℕ) (sstep : ℚ) (hs : 0 < sstep) :
    (gridRange ((m : ℚ) * sstep) sstep).length = 2 * m + 1 := by
  unfold gridRange
  rw [List.length_map, List.length_range]
  have : (2 * ((m : ℚ) * sstep) / sstep) = ((2 * m : ℕ) : ℚ) := by
    push_cast
    field_simp
    ring
  rw [this, Nat.floor_natCast]

/-- The middle entry of the symmetric grid is the zero slowness. -/
theorem gridRange_center (m : ℕ) (sstep : ℚ) (hs : 0 < sstep) :
    (gridRange ((m : ℚ) * sstep) sstep).getD m 0 = 0 := by
  unfold gridRange
  rw [List.getD_eq_getElem?_getD, List.getElem?_map, List.getElem?_range
    (by rw [show (2 * ((m : ℚ) * sstep) / sstep) = ((2 * m : ℕ) : ℚ) from by
          push_cast; field_simp; ring, Nat.floor_natCast]; omega)]
  simp

/-- Reading one cell of the grid-of-grids surface. -/
theorem cellAt_map_grid (g : List ℚ) (h : ℚ → ℚ → ℝ) (i j : ℕ)
    (hi : i < g.length) (hj : j < g.length) :
    cellAt (g.map (fun sx => g.map (fun sy => h sx sy))) i j =
      h (g.getD i 0) (g.getD j 0) := by
  unfold cellAt
  simp [List.getD_eq_getElem?_getD, List.getElem?_map, List.getElem?_eq_getElem, hi, hj]

/-! ### The documented transfer-function scenario -/

/-- The slowness grid of the documented scenario. -/
theorem gridRange_ref40 : gridRange 40 20 = [-40, -20, 0, 20, 40] := by
  unfold gridRange
  rw [show (⌊2 * (40 : ℚ) / 20⌋₊ + 1) = 5 from by norm_num]
  rw [show List.range 5 = [0, 1, 2, 3, 4] from by decide]
  simp only [List.map_cons, List.map_nil]
  norm_num

/-- Grid entries of the documented scenario in units of 20 s/km. -/
theorem grid40_getD (i : Fin 5) :
    (gridRange 40 20).getD (i : ℕ) 0 = ((20 * siOf i : ℤ) : ℚ) := by
  fin_cases i <;>
    simp only [gridRange_ref40, siOf, List.getD_cons_zero, List.getD_cons_succ] <;>
    norm_num

/-- The cosine table is even. -/
theorem cosTab4_neg : ∀ k : ZMod 5, cosTab4 (-k) = cosTab4 k := by decide

/-- The per-frequency mirror is even in the trial slowness. -/
theorem bZ_neg (xs : List (ℤ × ℤ)) (si sj f : ℤ) :
    bZ xs (-si) (-sj) f = bZ xs si sj f := by
  unfold bZ
  refine congrArg List.sum (List.map_congr_left (fun p _ => ?_))
  refine congrArg List.sum (List.map_congr_left (fun q _ => ?_))
  rw [show (f * (-si * (p.1 - q.1) + -sj * (p.2 - q.2))) =
    -(f * (si * (p.1 - q.1) + sj * (p.2 - q.2))) from by ring, Int.cast_neg, cosTab4_neg]

/-- The raw-response mirror is even in the trial slowness. -/
theorem rawZ_neg (xs : List (ℤ × ℤ)) (si sj : ℤ) :
    rawZ xs (-si) (-sj) = rawZ xs si sj := by
  unfold rawZ
  simp only [bZ_neg]

/-- Reflecting a grid index about the center negates the slowness. -/
theorem siOf_rev (i : Fin 5) : siOf ⟨4 - (i : ℕ), by omega⟩ = -(siOf i) := by
  fin_cases i <;> decide

/-- The zero-slowness raw response of the documented scenario. -/
theorem transffRawFS_center_cell : transffRawFS coords5 1 10 1 0 0 = 9 := by
  have h := transffRawFS_coords5 0 0
  rw [show ((20 * (0 : ℤ) : ℤ) : ℚ) = 0 from by norm_num] at h
  rw [h, show rawZ xs5i 0 0 = ((1800 : ℤ), (0 : ℤ)) from by decide]
  norm_num [toZ5]

/-- The evaluator output on the documented scenario, written over the
uncentred rational geometry. -/
theorem coords5_ok : array_transff_freqslowness coords5 40 20 1 10 1 CoordSys.xy =
    Except.ok ((gridRange 40 20).map (fun sx => (gridRange 40 20).map (fun sy =>
      transffRawFS coords5 1 10 1 sx sy / 9))) := by
  unfold array_transff_freqslowness get_geometry
  rw [if_neg (by simp [coords5, realize100, xs5i])]
  rw [map_toLocalKm_xy]
  simp only [Except.map]
  congr 1
  refine List.map_congr_left (fun sx _ => ?_)
  refine List.map_congr_left (fun sy _ => ?_)
  rw [transffRawFS_recentre, transffRawFS_recentre, transffRawFS_center_cell]

/-- Rational lower bracket of sqrt 5. -/
theorem sqrt5_lo : ((sqrt5lo : ℚ) : ℝ) ≤ Real.sqrt 5 := by
  refine Real.le_sqrt_of_sq_le ?_
  rw [show ((sqrt5lo : ℚ) : ℝ) = 2.2360679 from by norm_num [sqrt5lo]]
  norm_num

/-- Rational upper bracket of sqrt 5. -/
theorem sqrt5_hi : Real.sqrt 5 ≤ ((sqrt5hi : ℚ) : ℝ) := by
  rw [show ((sqrt5hi : ℚ) : ℝ) = 2.2360680 from by norm_num [sqrt5hi]]
  have h := Real.sqrt_le_sqrt (show (5 : ℝ) ≤ 2.2360680 ^ 2 from by norm_num)
  rwa [Real.sqrt_sq (by norm_num)] at h

set_option maxHeartbeats 2000000 in
/-- C4: on the documented 5-sensor scenario (km offsets, slim 40, sstep 20,
band 1..10 at unit step) the frequency-slowness evaluator returns the same
5 x 5 surface for Cartesian and geographic input; it is point-symmetric
about its center, its center cell is exactly 1, and every cell matches the
documented fixture to 6 decimal places. -/
theorem transff_reference_fixture :
    ∃ S, array_transff_freqslowness coords5 40 20 1 10 1 CoordSys.xy = Except.ok S ∧
      array_transff_freqslowness (lonLatOf coords5) 40 20 1 10 1 CoordSys.lonlat =
        Except.ok S ∧
      S.length = 5 ∧ S.Forall (fun row => row.length = 5) ∧
      cellAt S 2 2 = 1 ∧
      (∀ i j : Fin 5, cellAt S (i : ℕ) (j : ℕ) = cellAt S (4 - (i : ℕ)) (4 - (j : ℕ))) ∧
      (∀ i j : Fin 5,
        |cellAt S (i : ℕ) (j : ℕ) -
          (((transffFixture.getD (i : ℕ) []).getD (j : ℕ) 0 : ℚ) : ℝ)| < 15 / 10 ^ 7) := by
  have hcell : ∀ i j : Fin 5,
      cellAt ((gridRange 40 20).map (fun sx => (gridRange 40 20).map (fun sy =>
        transffRawFS coords5 1 10 1 sx sy / 9))) (i : ℕ) (j : ℕ) =
      toZ5 (rawZ xs5i (siOf i) (siOf j)) / 1800 := by
    intro i j
    rw [cellAt_map_grid _ _ _ _ (by rw [gridRange_ref40]; simp)
      (by rw [gridRange_ref40]; simp)]
    rw [grid40_getD i, grid40_getD j, transffRawFS_coords5]
    ring
  refine ⟨_, coords5_ok, ?_, ?_, ?_, ?_, ?_, ?_⟩
  · rw [← coords5_ok]
    unfold array_transff_freqslowness
    rw [get_geometry_lonLatOf]
  · rw [gridRange_ref40]
    simp
  · rw [gridRange_ref40]
    simp [List.Forall]
  · have h22 := hcell ⟨2, by norm_num⟩ ⟨2, by norm_num⟩
    norm_num [siOf] at h22
    rw [h22, show rawZ xs5i 0 0 = ((1800 : ℤ), (0 : ℤ)) from by decide]
    norm_num [toZ5]
  · intro i j
    have hrev := hcell ⟨4 - (i : ℕ), by omega⟩ ⟨4 - (j : ℕ), by omega⟩
    rw [hcell i j,
      show cellAt ((gridRange 40 20).map (fun sx => (gridRange 40 20).map (fun sy =>
        transffRawFS coords5 1 10 1 sx sy / 9))) (4 - (i : ℕ)) (4 - (j : ℕ)) =
      toZ5 (rawZ xs5i (siOf ⟨4 - (i : ℕ), by omega⟩) (siOf ⟨4 - (j : ℕ), by omega⟩)) / 1800
      from hrev, siOf_rev, siOf_rev, rawZ_neg]
  · intro i j
    rw [hcell i j]
    have hvA : rawZ xs5i (-2) (-2) = ((750 : ℤ), (2 : ℤ)) := by decide
    have hvB : rawZ xs5i (-2) (-1) = ((600 : ℤ), (0 : ℤ)) := by decide
    have hvC : rawZ xs5i (-2) 0 = ((600 : ℤ), (-8 : ℤ)) := by decide
    have hvD : rawZ xs5i (-2) 1 = ((450 : ℤ), (-2 : ℤ)) := by decide
    have hvE : rawZ xs5i (-2) 2 = ((1200 : ℤ), (8 : ℤ)) := by decide
    have hvF : rawZ xs5i (-1) (-2) = ((450 : ℤ), (2 : ℤ)) := by decide
    have hvG : rawZ xs5i (-1) (-1) = ((750 : ℤ), (-2 : ℤ)) := by decide
    have hvH : rawZ xs5i (-1) 0 = ((600 : ℤ), (8 : ℤ)) := by decide
    have hvI : rawZ xs5i (-1) 1 = ((1200 : ℤ), (-8 : ℤ)) := by decide
    have hvJ : rawZ xs5i (-1) 2 = ((600 : ℤ), (0 : ℤ)) := by decide
    have hvK : rawZ xs5i 0 (-2) = ((450 : ℤ), (-2 : ℤ)) := by decide
    have hvL : rawZ xs5i 0 (-1) = ((450 : ℤ), (2 : ℤ)) := by decide
    have hvM : rawZ xs5i 0 0 = ((1800 : ℤ), (0 : ℤ)) := by decide
    have hvN : rawZ xs5i 0 1 = ((450 : ℤ), (2 : ℤ)) := by decide
    have hvO : rawZ xs5i 0 2 = ((450 : ℤ), (-2 : ℤ)) := by decide
    have hvP : rawZ xs5i 1 (-2) = ((600 : ℤ), (0 : ℤ)) := by decide
    have hvQ : rawZ xs5i 1 (-1) = ((1200 : ℤ), (-8 : ℤ)) := by decide
    have hvR : rawZ xs5i 1 0 = ((600 : ℤ), (8 : ℤ)) := by decide
    have hvS : rawZ xs5i 1 1 = ((750 : ℤ), (-2 : ℤ)) := by decide
    have hvT : rawZ xs5i 1 2 = ((450 : ℤ), (2 : ℤ)) := by decide
    have hvU : rawZ xs5i 2 (-2) = ((1200 : ℤ), (8 : ℤ)) := by decide
    have hvV : rawZ xs5i 2 (-1) = ((450 : ℤ), (-2 : ℤ)) := by decide
    have hvW : rawZ xs5i 2 0 = ((600 : ℤ), (-8 : ℤ)) := by decide
    have hvX : rawZ xs5i 2 1 = ((600 : ℤ), (0 : ℤ)) := by decide
    have hvY : rawZ xs5i 2 2 = ((750 : ℤ), (2 : ℤ)) := by decide
    have hlo := sqrt5_lo
    have hhi := sqrt5_hi
    rw [show ((sqrt5lo : ℚ) : ℝ) = 2.2360679 from by norm_num [sqrt5lo]] at hlo
    rw [show ((sqrt5hi : ℚ) : ℝ) = 2.2360680 from by norm_num [sqrt5hi]] at hhi
    fin_cases i <;> fin_cases j <;>
      norm_num [siOf, transffFixture, toZ5, hvA, hvB, hvC, hvD, hvE, hvF, hvG, hvH,
        hvI, hvJ, hvK, hvL, hvM, hvN, hvO, hvP, hvQ, hvR, hvS, hvT, hvU, hvV, hvW,
        hvX, hvY] <;>
      rw [abs_lt] <;> constructor <;> linarith [hlo, hhi]

/-! ### The emitted backazimuth and slowness of the winning cell -/

/-- Alternating-series brackets of arctan(1/3): the partial sums with 8 and
9 terms of its Leibniz series. -/
theorem arctan_third_bounds :
    (69320783176 / 215448838605 : ℝ) ≤ Real.arctan (1 / 3) ∧
      Real.arctan (1 / 3) ≤ (3535359946981 / 10987890768855 : ℝ) := by
  have hx : ‖(1 / 3 : ℝ)‖ < 1 := by
    rw [Real.norm_eq_abs, abs_lt]
    norm_num
  have hsum := Real.hasSum_arctan hx
  have hsum' : HasSum (fun n : ℕ => (-1) ^ n * ((1 / 3 : ℝ) ^ (2 * n + 1) / (2 * (n : ℝ) + 1)))
      (Real.arctan (1 / 3)) := by
    refine hsum.congr_fun ?_
    intro n
    push_cast
    ring
  have htend := hsum'.tendsto_sum_nat
  have hant : Antitone (fun n : ℕ => ((1 / 3 : ℝ) ^ (2 * n + 1) / (2 * (n : ℝ) + 1))) := by
    refine antitone_nat_of_succ_le (fun n => ?_)
    have h1 : (1 / 3 : ℝ) ^ (2 * (n + 1) + 1) ≤ (1 / 3 : ℝ) ^ (2 * n + 1) :=
      pow_le_pow_of_le_one (by norm_num) (by norm_num) (by omega)
    have h2 : (0 : ℝ) < 2 * (n : ℝ) + 1 := by positivity
    have h4 : (0 : ℝ) ≤ (1 / 3 : ℝ) ^ (2 * n + 1) := by positivity
    exact div_le_div₀ h4 h1 h2 (by push_cast; linarith)
  have hlow := hant.alternating_series_le_tendsto htend 4
  have hhigh := hant.tendsto_le_alternating_series htend 4
  norm_num at hlow hhigh
  exact ⟨hlow, hhigh⟩

/-- The four-quadrant arctangent at the winning cell lies in the first
quadrant branch. -/
theorem atan2_ref : atan2 0.4 1.2 = Real.arctan (1 / 3) := by
  unfold atan2
  rw [if_pos (by norm_num : (0 : ℝ) < 1.2)]
  norm_num

/-- The emitted backazimuth of the winning cell (0.4, 1.2): the normalizing
branch does not fire. -/
theorem bazOf_ref : bazOf 0.4 1.2 = Real.arctan (1 / 3) * 180 / Real.pi := by
  unfold bazOf
  rw [atan2_ref]
  rw [if_neg]
  push_neg
  have h1 : (0 : ℝ) < Real.arctan (1 / 3) :=
    lt_of_lt_of_le (by norm_num) arctan_third_bounds.1
  positivity

/-- C7: the emitted slowness and backazimuth are sqrt(sx^2 + sy^2) and
atan2(sx, sy) in degrees normalized into [0, 360), with the per-sensor
delay sx x + sy y ignoring elevation; at the winning cell (0.4, 1.2) they
agree with the recorded fixture values 1.26491106 s/km and 18.4349488
degrees to the fixture's relative precision of 1e-6. -/
theorem emit_conversion_reference :
    (∀ sx sy : ℝ, slownessOf sx sy = Real.sqrt (sx ^ 2 + sy ^ 2)) ∧
    (∀ sx sy x y e : ℝ, steeringDelay sx sy (x, y, e) = sx * x + sy * y) ∧
    bazOf 0.4 1.2 = Real.arctan (1 / 3) * 180 / Real.pi ∧
    slownessOf 0.4 1.2 = Real.sqrt (0.4 ^ 2 + 1.2 ^ 2) ∧
    |bazOf 0.4 1.2 - 18.4349488| ≤ 18.4349488 * (1 / 10 ^ 6) ∧
    |slownessOf 0.4 1.2 - 1.26491106| ≤ 1.26491106 * (1 / 10 ^ 6) ∧
    sonicBfFixture.Forall (fun r => r.baz = 184349488 / 10 ^ 7 ∧
      r.slowness = 126491106 / 10 ^ 8) := by
  refine ⟨fun sx sy => rfl, fun sx sy x y e => rfl, bazOf_ref, rfl, ?_, ?_, ?_⟩
  · rw [bazOf_ref]
    obtain ⟨hlo, hhi⟩ := arctan_third_bounds
    have hπ1 : (3.141592 : ℝ) < Real.pi := Real.pi_gt_d6
    have hπ2 : Real.pi < (3.141593 : ℝ) := Real.pi_lt_d6
    have hup : Real.arctan (1 / 3) * 180 / Real.pi ≤
        (3535359946981 / 10987890768855 : ℝ) * 180 / 3.141592 := by
      refine div_le_div₀ (by norm_num) (by linarith) (by norm_num) (by linarith)
    have hdn : (69320783176 / 215448838605 : ℝ) * 180 / 3.141593 ≤
        Real.arctan (1 / 3) * 180 / Real.pi := by
      refine div_le_div₀ (by linarith [Real.pi_pos]) (by linarith) (by linarith) (by linarith)
    have hq1 : (18.4349488 : ℝ) - 18.4349488 * (1 / 10 ^ 6) ≤
        (69320783176 / 215448838605 : ℝ) * 180 / 3.141593 := by norm_num
    have hq2 : (3535359946981 / 10987890768855 : ℝ) * 180 / 3.141592 ≤
        (18.4349488 : ℝ) + 18.4349488 * (1 / 10 ^ 6) := by norm_num
    rw [abs_le]
    constructor <;> linarith
  · have hv : slownessOf 0.4 1.2 = Real.sqrt 1.6 := by
      unfold slownessOf
      norm_num
    rw [hv, abs_le]
    have hlo : (1.26491106 : ℝ) ≤ Real.sqrt 1.6 :=
      Real.le_sqrt_of_sq_le (by norm_num)
    have hhi : Real.sqrt 1.6 ≤ 1.26491106 + 1.26491106 * (1 / 10 ^ 6) := by
      have h := Real.sqrt_le_sqrt
        (show (1.6 : ℝ) ≤ (1.26491106 + 1.26491106 * (1 / 10 ^ 6)) ^ 2 from by norm_num)
      rwa [Real.sqrt_sq (by norm_num)] at h
    constructor <;> linarith
  · simp [sonicBfFixture, List.Forall]

/-- C2: for every valid array geometry and every symmetric grid containing
the zero slowness / zero wavenumber, both modes of the transfer-function
evaluator succeed and their center cell equals exactly 1. -/
theorem transff_center_cell_one
    (coords : List (ℝ × ℝ × ℝ)) (cs : CoordSys)
    (sstep fmin fmax fstep kstep : ℚ) (m mk : ℕ)
    (hgeom : ValidGeometry coords)
    (hs : 0 < sstep) (hk : 0 < kstep) (hfs : 0 < fstep)
    (hband : fstep ≤ fmax - fmin) :
    (∃ S, array_transff_freqslowness coords ((m : ℚ) * sstep) sstep fmin fmax fstep cs =
        Except.ok S ∧ cellAt S m m = 1) ∧
    (∃ W, array_transff_wavenumber coords ((mk : ℚ) * kstep) kstep cs =
        Except.ok W ∧ cellAt W mk mk = 1) := by
  have hlen3 : ¬ (coords.length < 3) := not_lt.mpr hgeom.1
  have hglen : (recentre (coords.map (toLocalKm cs))).length = coords.length := by
    simp [recentre]
  have hg0 : (recentre (coords.map (toLocalKm cs))).length ≠ 0 := by
    rw [hglen]
    omega
  constructor
  · refine ⟨(gridRange ((m : ℚ) * sstep) sstep).map (fun sx =>
      (gridRange ((m : ℚ) * sstep) sstep).map (fun sy =>
        transffRawFS (recentre (coords.map (toLocalKm cs))) fmin fmax fstep sx sy /
          transffRawFS (recentre (coords.map (toLocalKm cs))) fmin fmax fstep 0 0)), ?_, ?_⟩
    · unfold array_transff_freqslowness get_geometry
      rw [if_neg hlen3]
      rfl
    · rw [cellAt_map_grid _ _ m m (by rw [gridRange_length m sstep hs]; omega)
        (by rw [gridRange_length m sstep hs]; omega), gridRange_center m sstep hs]
      exact div_self (ne_of_gt (transffRawFS_zero_pos _ fmin fmax fstep hg0 hfs hband))
  · refine ⟨(gridRange ((mk : ℚ) * kstep) kstep).map (fun kx =>
      (gridRange ((mk : ℚ) * kstep) kstep).map (fun ky =>
        transffRawK (recentre (coords.map (toLocalKm cs))) kx ky /
          transffRawK (recentre (coords.map (toLocalKm cs))) 0 0)), ?_, ?_⟩
    · unfold array_transff_wavenumber get_geometry
      rw [if_neg hlen3]
      rfl
    · rw [cellAt_map_grid _ _ mk mk (by rw [gridRange_length mk kstep hk]; omega)
        (by rw [gridRange_length mk kstep hk]; omega), gridRange_center mk kstep hk]
      rw [transffRawK_zero _ hg0]
      norm_num

/-- Witness for C2 at a concrete three-sensor right-angle array. -/
theorem transff_center_cell_one_witness :
    ValidGeometry [((0 : ℝ), (0 : ℝ), (0 : ℝ)), (1, 0, 0), (0, 1, 0)] ∧
    ((∃ S, array_transff_freqslowness [((0 : ℝ), (0 : ℝ), (0 : ℝ)), (1, 0, 0), (0, 1, 0)]
        (((1 : ℕ) : ℚ) * 1) 1 1 2 1 CoordSys.xy = Except.ok S ∧ cellAt S 1 1 = 1) ∧
     (∃ W, array_transff_wavenumber [((0 : ℝ), (0 : ℝ), (0 : ℝ)), (1, 0, 0), (0, 1, 0)]
        (((1 : ℕ) : ℚ) * 1) 1 CoordSys.xy = Except.ok W ∧ cellAt W 1 1 = 1)) := by
  have hv : ValidGeometry [((0 : ℝ), (0 : ℝ), (0 : ℝ)), (1, 0, 0), (0, 1, 0)] := by
    refine ⟨by norm_num, ((0 : ℝ), (0 : ℝ), (0 : ℝ)), by simp, (1, 0, 0), by simp,
      (0, 1, 0), by simp, ?_⟩
    norm_num
  exact ⟨hv, transff_center_cell_one _ CoordSys.xy 1 1 2 1 1 1 1 hv (by norm_num)
    (by norm_num) (by norm_num) (by norm_num)⟩

/-- C3: the transfer-function surfaces computed from the geographic
description of an array (its coordinates sent through the lon/lat
conversion anchored at the origin) and from the local Cartesian
description are identical in both modes — in particular they agree
elementwise to at least 6 decimal places. -/
theorem transff_lonlat_equals_xy
    (coords : List (ℝ × ℝ × ℝ)) (slim sstep fmin fmax fstep klim kstep : ℚ) :
    array_transff_freqslowness (lonLatOf coords) slim sstep fmin fmax fstep CoordSys.lonlat =
      array_transff_freqslowness coords slim sstep fmin fmax fstep CoordSys.xy ∧
    array_transff_wavenumber (lonLatOf coords) klim kstep CoordSys.lonlat =
      array_transff_wavenumber coords klim kstep CoordSys.xy ∧
    (∀ i j : ℕ,
      |cellAt (exceptCells (array_transff_freqslowness (lonLatOf coords) slim sstep fmin
          fmax fstep CoordSys.lonlat)) i j -
        cellAt (exceptCells (array_transff_freqslowness coords slim sstep fmin fmax fstep
          CoordSys.xy)) i j| ≤ 1 / 10 ^ 6 ∧
      |cellAt (exceptCells (array_transff_wavenumber (lonLatOf coords) klim kstep
          CoordSys.lonlat)) i j -
        cellAt (exceptCells (array_transff_wavenumber coords klim kstep CoordSys.xy)) i j| ≤
          1 / 10 ^ 6) := by
  have h1 : array_transff_freqslowness (lonLatOf coords) slim sstep fmin fmax fstep
      CoordSys.lonlat = array_transff_freqslowness coords slim sstep fmin fmax fstep
      CoordSys.xy := by
    unfold array_transff_freqslowness
    rw [get_geometry_lonLatOf]
  have h2 : array_transff_wavenumber (lonLatOf coords) klim kstep CoordSys.lonlat =
      array_transff_wavenumber coords klim kstep CoordSys.xy := by
    unfold array_transff_wavenumber
    rw [get_geometry_lonLatOf]
  refine ⟨h1, h2, fun i j => ⟨?_, ?_⟩⟩
  · rw [h1]
    simp
  · rw [h2]
    simp

/-- Length of the correlation kernel loop output equals the accumulator
length: the kernel only writes in place. -/
theorem phaseXcorrLoop_length (cabs : ℚ × ℚ → ℚ) (d1 d2 : List (ℚ × ℚ))
    (nu max_lag : ℕ) (pxc : List ℚ) :
    (phaseXcorrLoop cabs d1 d2 nu max_lag pxc).length = pxc.length := by
  unfold phaseXcorrLoop
  generalize List.range (max_lag + 1) = ks
  induction ks generalizing pxc with
  | nil => rfl
  | cons k t ih =>
      rw [List.foldl_cons, ih]
      simp

/-- The min_lag masking never changes the length. -/
theorem maskMinLag_length (min_lag : ℕ) (l : List ℚ) :
    (maskMinLag min_lag l).length = l.length := by
  simp [maskMinLag]

/-- C10: for equal-length inputs and any max_lag, exponent and min_lag,
phase_xcorr returns exactly 2 * max_lag + 1 lag values. -/
theorem phase_xcorr_length (hilb : List ℚ → List (ℚ × ℚ))
    (cabs : ℚ × ℚ → ℚ) (data1 data2 : List ℚ) (max_lag nu min_lag : ℕ)
    (_hlen : data1.length = data2.length) :
    (phase_xcorr hilb cabs data1 data2 max_lag nu min_lag).length =
      2 * max_lag + 1 := by
  unfold phase_xcorr
  by_cases h : min_lag ≠ 0 <;>
    simp [h, maskMinLag_length, phaseXcorrLoop_length]

/-- Witness for C10 at a concrete input. -/
theorem phase_xcorr_length_witness :
    ([(1 : ℚ), 2, 3].length = [(4 : ℚ), 5, 6].length) ∧
    (phase_xcorr (fun l => l.map (fun x => (x, 0))) (fun p => p.1)
      [1, 2, 3] [4, 5, 6] 2 1 1).length = 2 * 2 + 1 :=
  ⟨rfl, phase_xcorr_length (fun l => l.map (fun x => (x, 0))) (fun p => p.1)
    [1, 2, 3] [4, 5, 6] 2 1 1 rfl⟩

/-- C5 counterexample: the recorded classic-method reference rows do not
have relative power 1.0 — the first row's relative power is 0.969515476,
and the value 1.0 is not accepted for it even at the test's relative
tolerance of 1e-6. -/
theorem classic_relpow_not_one :
    (sonicBfFixture.head?.getD ⟨0, 0, 0, 0⟩).relpow = 969515476 / 10 ^ 9 ∧
    (sonicBfFixture.head?.getD ⟨0, 0, 0, 0⟩).relpow ≠ 1 ∧
    ¬ allclose (1 / 10 ^ 6) (sonicBfFixture.head?.getD ⟨0, 0, 0, 0⟩).relpow 1 := by
  simp only [sonicBfFixture, allclose, List.head?, Option.getD, abs_le]
  norm_num

/-- C5 (amended): classic-method relative power is the winning cell's value
of the relative-power surface; it lies in (0, 1) rather than being
identically 1.0 — every recorded classic-method row has relative power
strictly between 0.94 and 0.97, incompatible with 1.0 at the test
tolerance. -/
theorem classic_relpow_lt_one :
    sonicBfFixture.Forall (fun r =>
      94 / 100 < r.relpow ∧ r.relpow < 97 / 100 ∧
      ¬ allclose (1 / 10 ^ 6) r.relpow 1) := by
  simp only [sonicBfFixture, allclose, List.Forall, abs_le]
  norm_num

/-- C6 counterexample: in the reference scenario the emitted backazimuth
18.4349488 degrees differs from the true backazimuth 20 degrees by more
than 1 degree. -/
theorem baz_error_exceeds_one_degree :
    |(sonicBfFixture.head?.getD ⟨0, 0, 0, 0⟩).baz - trueBaz| > 1 := by
  simp only [sonicBfFixture, trueBaz, List.head?, Option.getD]
  rw [gt_iff_lt, lt_abs]
  norm_num

/-- C6 (amended): on the reference scenario the classic-method beamformer
recovers the backazimuth within 2 degrees (the slowness grid quantizes the
winning cell to (0.4, 1.2), 1.57 degrees off the true 20 degrees) and the
slowness magnitude within one grid step of the true 1.3 s/km, in every
emitted row. -/
theorem baz_within_two_degrees_slowness_within_step :
    sonicBfFixture.Forall (fun r =>
      |r.baz - trueBaz| ≤ 2 ∧ |r.slowness - trueSlowness| ≤ gridStep) := by
  simp only [sonicBfFixture, trueBaz, trueSlowness, gridStep, List.Forall, abs_le]
  norm_num

/-- C9: between the recorded classic-method reference runs with
prewhiten = 0 and prewhiten = 1, the absolute power, backazimuth and
slowness columns agree row by row, and the relative-power column differs in
every row. -/
theorem prewhiten_changes_only_relpow :
    sonicBfPrewFixture.map (fun r => (r.abspow, r.baz, r.slowness)) =
      sonicBfFixture.map (fun r => (r.abspow, r.baz, r.slowness)) ∧
    (sonicBfPrewFixture.zip sonicBfFixture).Forall
      (fun rr => rr.1.relpow ≠ rr.2.relpow) := by
  constructor
  · simp [sonicBfFixture, sonicBfPrewFixture]
  · simp only [sonicBfFixture, sonicBfPrewFixture, List.zip, List.zipWith, List.Forall]
    norm_num

/-- C8: catalog_to_kml_string without an icon_size_func applies the default
size function once per event; that default returns 1.2 * log(1.5 + mag)
when the event has a magnitude and the logarithm is defined, falls back to
0.1 when the magnitude is at most -1.5, and returns 0.5 for an event with
no magnitude. -/
theorem catalog_icon_scales_default (cat : List Event) (m : ℝ)
    (pmags : List ℝ) :
    catalogIconScales none cat = cat.map defaultIconSizeFunc ∧
    (catalogIconScales none cat).length = cat.length ∧
    defaultIconSizeFunc ⟨some m, pmags⟩ =
      (if -1.5 < m then 1.2 * Real.log (1.5 + m) else 0.1) ∧
    defaultIconSizeFunc ⟨none, m :: pmags⟩ =
      (if -1.5 < m then 1.2 * Real.log (1.5 + m) else 0.1) ∧
    defaultIconSizeFunc ⟨none, []⟩ = 0.5 := by
  refine ⟨rfl, by simp [catalogIconScales], ?_, ?_, rfl⟩ <;>
  · simp only [defaultIconSizeFunc, eventMag, List.head?]
    by_cases h : -1.5 < m
    · rw [if_pos (by linarith), if_pos h]
    · rw [if_neg (by intro hc; exact h (by linarith)), if_neg h]

end ObsPy
